import Mathlib

/-!
Shallow embedding of `packages/vue-language-server/src/utils/project.ts`.

The project controller created by `createProject` owns four pieces of mutable
state: `typeRootVersion`, `projectVersion`, the lazily constructed language
service `vueLs`, the parsed command line, and the script registry `scripts`
(a path map from file name to `{ version, fileName, snapshot, snapshotVersion }`).
We model that state as a record `ProjectState` and each operation of the
returned object as an explicit state-passing function.

Modelling decisions:
* `shared.createPathMap` is a map doubly indexed by URI and filesystem path;
  the two key forms are in bijection, so we model it as a single partial map
  `Path → Option ScriptEntry` over one key space `Path := String`.
* `ts.IScriptSnapshot` is an opaque immutable text blob; we model it as the
  `String` it wraps, with `scriptSnapshotFromString` playing the role of
  `ts.ScriptSnapshot.fromString`.
* The external document store (`documents.data`) and the filesystem
  (`projectSys`) are read-only collaborators, passed in as explicit records.
* `parsedCommandLine` is recomputed wholesale from the external config and
  filesystem by `createParsedCommandLine`; since its contents are a pure
  function of external inputs, we model the cache by the *identity* of the
  current computation (`parsedCommandLine : Nat`, the generation number) and
  instrument the number of `createParsedCommandLine` invocations with
  `pclComputeCount` so that "recomputed exactly once" is expressible.
* `vue.LanguageService` instances are modelled by an identity number plus a
  `disposed` flag; `languageConfigs.createLanguageService` is instrumented by
  `lsFactoryCount`, the number of factory invocations, and yields a fresh
  identity each time it is invoked.
-/

namespace VolarProject

/-- Keys of the script registry and the document store: a file name / URI. -/
abbrev Path := String

/-- One entry of `scripts`, mirroring the element type of
`shared.createPathMap<{version, fileName, snapshot, snapshotVersion}>()`:
`version : number`, `snapshot : ts.IScriptSnapshot | undefined`,
`snapshotVersion : number | undefined`. -/
structure ScriptEntry where
  version : Int
  fileName : Path
  snapshot : Option String
  snapshotVersion : Option Int
deriving DecidableEq, Repr

/-- `vscode.FileChangeType`. -/
inductive FileChangeType where
  | Created
  | Changed
  | Deleted
deriving DecidableEq, Repr

/-- `vscode.FileEvent`: a uri plus a change kind. -/
structure FileEvent where
  uri : Path
  type : FileChangeType
deriving DecidableEq, Repr

/-- An entry of the external document store: the code uses `doc.version`
(a non-negative integer) and `doc.getSnapshot()`. -/
structure Doc where
  version : Nat
  snapshot : String
deriving DecidableEq, Repr

/-- The external document store `documents.data` (open documents only),
exposing `fsPathGet`. -/
structure DocumentStore where
  fsPathGet : Path → Option Doc

/-- The read-only part of `projectSys : ts.System` that `getScriptSnapshot`
consults: `fileExists` and `readFile` (which may fail, returning
`undefined`). -/
structure FS where
  fileExists : Path → Bool
  readFile : Path → Option String

/-- `ts.ScriptSnapshot.fromString`: wraps text as an immutable snapshot.
Snapshots are modelled by the text they carry. -/
def scriptSnapshotFromString (text : String) : String :=
  text

/-- A `vue.LanguageService` instance: `id` is the identity of the
construction (the value of the factory counter when it was built) and
`disposed` records whether `dispose()` has been called on it. -/
structure LanguageService where
  id : Nat
  disposed : Bool
deriving DecidableEq, Repr

/-- The mutable state owned by one `createProject` closure. -/
structure ProjectState where
  typeRootVersion : Nat
  projectVersion : Nat
  vueLs : Option LanguageService
  lsFactoryCount : Nat
  parsedCommandLine : Nat
  pclComputeCount : Nat
  scripts : Path → Option ScriptEntry

/-- Point update of the script map (`scripts.fsPathSet` / in-place mutation of
an entry obtained from `uriGet`). -/
def setScript (m : Path → Option ScriptEntry) (k : Path) (v : ScriptEntry) :
    Path → Option ScriptEntry :=
  fun p => if p = k then some v else m p

/-- `scripts.uriDelete`. -/
def delScript (m : Path → Option ScriptEntry) (k : Path) :
    Path → Option ScriptEntry :=
  fun p => if p = k then none else m p

/-- The state right after `createProject` runs its initializers:
`typeRootVersion = 0`, `projectVersion = 0`, `vueLs = undefined`,
`parsedCommandLine = createParsedCommandLine()` (one computation, generation
0), empty script registry. -/
def createProject : ProjectState :=
  { typeRootVersion := 0
    projectVersion := 0
    vueLs := none
    lsFactoryCount := 0
    parsedCommandLine := 0
    pclComputeCount := 1
    scripts := fun _ => none }

/-- The version invalidation performed for a `Changed`/`Created` event on a
tracked entry: `if (script.version >= 0) script.version = -1; else
script.version--;`. -/
def invalidatedVersion (v : Int) : Int :=
  if 0 ≤ v then -1 else v - 1

/-- The per-event body of the loop in `onWorkspaceFilesChanged`, minus the
`projectVersion++`: look the uri up in `scripts`; on `Changed`/`Created` of a
tracked entry invalidate its version; on `Deleted` of a tracked entry remove
it; otherwise do nothing. -/
def recordChange (s : ProjectState) (change : FileEvent) : ProjectState :=
  match s.scripts change.uri with
  | none => s
  | some script =>
    if change.type = FileChangeType.Changed ∨ change.type = FileChangeType.Created then
      let invalidated := { script with version := invalidatedVersion script.version }
      { s with scripts := setScript s.scripts change.uri invalidated }
    else if change.type = FileChangeType.Deleted then
      { s with scripts := delScript s.scripts change.uri }
    else
      s

/-- One iteration of the `for (const change of changes)` loop:
`recordChange` followed by `projectVersion++`. -/
def applyEvent (s : ProjectState) (change : FileEvent) : ProjectState :=
  let s1 := recordChange s change
  { s1 with projectVersion := s1.projectVersion + 1 }

/-- `onWorkspaceFilesChanged(changes)`: the per-event loop, then, when the
batch holds at least one `Created` or `Deleted` event
(`creates.length || deletes.length`), one `createParsedCommandLine()` call
(replacing the cache with the fresh generation, bumping the instrumentation
counter) and one `typeRootVersion++`. -/
def onWorkspaceFilesChanged (s : ProjectState) (changes : List FileEvent) :
    ProjectState :=
  let s1 := changes.foldl applyEvent s
  let creates := changes.filter (fun change => change.type = FileChangeType.Created)
  let deletes := changes.filter (fun change => change.type = FileChangeType.Deleted)
  if creates.length ≠ 0 ∨ deletes.length ≠ 0 then
    { s1 with
        parsedCommandLine := s1.pclComputeCount
        pclComputeCount := s1.pclComputeCount + 1
        typeRootVersion := s1.typeRootVersion + 1 }
  else
    s1

/-- `onDocumentUpdated()`: `projectVersion++`. -/
def onDocumentUpdated (s : ProjectState) : ProjectState :=
  { s with projectVersion := s.projectVersion + 1 }

/-- `getLanguageService()`: if `vueLs` is unset, invoke the factory
(`languageConfigs.createLanguageService`), store the fresh instance, and
return it; otherwise return the stored instance. -/
def getLanguageService (s : ProjectState) : LanguageService × ProjectState :=
  match s.vueLs with
  | some ls => (ls, s)
  | none =>
    let ls : LanguageService := { id := s.lsFactoryCount, disposed := false }
    (ls, { s with vueLs := some ls, lsFactoryCount := s.lsFactoryCount + 1 })

/-- `getLanguageServiceDontCreate: () => vueLs`. -/
def getLanguageServiceDontCreate (s : ProjectState) : Option LanguageService :=
  s.vueLs

/-- `getParsedCommandLine: () => parsedCommandLine`. -/
def getParsedCommandLine (s : ProjectState) : Nat :=
  s.parsedCommandLine

/-- `dispose()`: `vueLs?.dispose(); scripts.clear();`. Disposing the held
language service marks it disposed; the reference `vueLs` itself is left in
place (the source never sets it back to `undefined`), and the script registry
is emptied. No other field is touched. -/
def dispose (s : ProjectState) : ProjectState :=
  { s with
      vueLs := s.vueLs.map (fun ls => { ls with disposed := true })
      scripts := fun _ => none }

/-- `getScriptVersion(fileName)` of the language service host: an open
document wins with `doc.version.toString()`; otherwise
`scripts.fsPathGet(fileName)?.version.toString() ?? ''`. -/
def getScriptVersion (documents : DocumentStore) (s : ProjectState)
    (fileName : Path) : String :=
  match documents.fsPathGet fileName with
  | some doc => toString doc.version
  | none =>
    match s.scripts fileName with
    | some script => toString script.version
    | none => ""

/-- The fall-through tail of `getScriptSnapshot` reached when no valid cached
snapshot exists: if the file exists and reads successfully, wrap the text,
store it (updating the existing entry's `snapshot`/`snapshotVersion`, or
creating a fresh entry at `version = -1`, `snapshotVersion = -1`), and return
it; otherwise return no snapshot. -/
def readAndCacheSnapshot (fs : FS) (s : ProjectState) (fileName : Path) :
    Option String × ProjectState :=
  if fs.fileExists fileName then
    match fs.readFile fileName with
    | some text =>
      let snapshot := scriptSnapshotFromString text
      match s.scripts fileName with
      | some script =>
        let updated :=
          { script with
              snapshot := some snapshot
              snapshotVersion := some script.version }
        (some snapshot, { s with scripts := setScript s.scripts fileName updated })
      | none =>
        let fresh : ScriptEntry :=
          { version := -1
            fileName := fileName
            snapshot := some snapshot
            snapshotVersion := some (-1) }
        (some snapshot, { s with scripts := setScript s.scripts fileName fresh })
    | none => (none, s)
  else
    (none, s)

/-- `getScriptSnapshot(fileName)` of the language service host: an open
document wins with `doc.getSnapshot()`; else a tracked entry whose
`snapshotVersion === version` returns its cached snapshot; else fall through
to the filesystem read. -/
def getScriptSnapshot (documents : DocumentStore) (fs : FS) (s : ProjectState)
    (fileName : Path) : Option String × ProjectState :=
  match documents.fsPathGet fileName with
  | some doc => (some doc.snapshot, s)
  | none =>
    match s.scripts fileName with
    | some script =>
      if script.snapshotVersion = some script.version then
        (script.snapshot, s)
      else
        readAndCacheSnapshot fs s fileName
    | none => readAndCacheSnapshot fs s fileName

/-- An error delivered by the remote document-content request; the code
propagates `error.message`. -/
structure RemoteError where
  message : String

/-- The collaborators consulted by the uri content-resolution callback wired
into `createLanguageService`: `runtimeEnv.schemaRequestHandlers` keyed by
protocol, the `options.languageFeatures?.schemaRequestService` flag, and
`connection.sendRequest(shared.GetDocumentContentRequest.type, ...)`. -/
structure ResolveEnv where
  schemaRequestHandlers : String → Option (String → Except String String)
  hasSchemaRequestService : Bool
  sendGetDocumentContentRequest : String → Except RemoteError String

/-- `uri.substring(0, uri.indexOf(':'))`: the characters before the first
colon, or the empty string when the uri has no colon (JS `indexOf` yields
`-1` and `substring` clamps it to `0`). -/
def uriProtocol (uri : String) : String :=
  if uri.toList.contains ':' then
    String.mk (uri.toList.takeWhile (fun c => c ≠ ':'))
  else
    ""

/-- The uri content-resolution callback passed to `createLanguageService`:
try the built-in handler for the uri's protocol; else, when the remote
schema-request service is configured, forward to the remote request and remap
a rejection to its `error.message`; else reject with the fixed message. It is
a pure function of its collaborators and the uri: it neither receives nor
produces a `ProjectState`, so it can mutate no cache or counter. -/
def resolveUriContent (env : ResolveEnv) (uri : String) : Except String String :=
  let protocol := uriProtocol uri
  match env.schemaRequestHandlers protocol with
  | some builtInHandler => builtInHandler uri
  | none =>
    if env.hasSchemaRequestService then
      match env.sendGetDocumentContentRequest uri with
      | Except.ok responseText => Except.ok responseText
      | Except.error e => Except.error e.message
    else
      Except.error "clientHandledGetDocumentContentRequest is false"

/-- The operations the project object exposes besides `dispose`: workspace
change batches, open-document update notifications, host snapshot fetches
(the only host call that mutates state), and the lazy accessor itself.
`getScriptVersion`, `getParsedCommandLine` and `getLanguageServiceDontCreate`
only read: they return values without touching state. -/
inductive Op where
  | workspaceFilesChanged (changes : List FileEvent)
  | documentUpdated
  | scriptSnapshot (documents : DocumentStore) (fs : FS) (p : Path)
  | languageService
  | scriptVersion (documents : DocumentStore) (p : Path)
  | parsedCommandLineRead
  | languageServiceDontCreate

/-- The state effect of one non-dispose operation. The three value-returning
reads leave the state unchanged (their definitions above take the state and
produce only a value). -/
def runOp (s : ProjectState) : Op → ProjectState
  | Op.workspaceFilesChanged changes => onWorkspaceFilesChanged s changes
  | Op.documentUpdated => onDocumentUpdated s
  | Op.scriptSnapshot documents fs p => (getScriptSnapshot documents fs s p).2
  | Op.languageService => (getLanguageService s).2
  | Op.scriptVersion _ _ => s
  | Op.parsedCommandLineRead => s
  | Op.languageServiceDontCreate => s

/-- Run a sequence of non-dispose operations, front to back. -/
def runOps (s : ProjectState) (ops : List Op) : ProjectState :=
  ops.foldl runOp s

/-! ## Helper lemmas -/

theorem getLanguageService_of_some (s : ProjectState) (ls : LanguageService)
    (h : s.vueLs = some ls) : getLanguageService s = (ls, s) := by
  unfold getLanguageService
  rw [h]

theorem getLanguageService_of_none (s : ProjectState) (h : s.vueLs = none) :
    getLanguageService s =
      ({ id := s.lsFactoryCount, disposed := false },
        { s with vueLs := some { id := s.lsFactoryCount, disposed := false },
                 lsFactoryCount := s.lsFactoryCount + 1 }) := by
  unfold getLanguageService
  rw [h]

theorem recordChange_counters (s : ProjectState) (c : FileEvent) :
    (recordChange s c).projectVersion = s.projectVersion ∧
    (recordChange s c).typeRootVersion = s.typeRootVersion ∧
    (recordChange s c).vueLs = s.vueLs ∧
    (recordChange s c).lsFactoryCount = s.lsFactoryCount ∧
    (recordChange s c).parsedCommandLine = s.parsedCommandLine ∧
    (recordChange s c).pclComputeCount = s.pclComputeCount := by
  unfold recordChange
  cases s.scripts c.uri <;> dsimp only <;> (try split) <;> (try split) <;>
    exact ⟨rfl, rfl, rfl, rfl, rfl, rfl⟩

theorem applyEvent_projectVersion (s : ProjectState) (c : FileEvent) :
    (applyEvent s c).projectVersion = s.projectVersion + 1 := by
  unfold applyEvent
  simp [(recordChange_counters s c).1]

theorem applyEvent_counters (s : ProjectState) (c : FileEvent) :
    (applyEvent s c).typeRootVersion = s.typeRootVersion ∧
    (applyEvent s c).vueLs = s.vueLs ∧
    (applyEvent s c).lsFactoryCount = s.lsFactoryCount ∧
    (applyEvent s c).parsedCommandLine = s.parsedCommandLine ∧
    (applyEvent s c).pclComputeCount = s.pclComputeCount := by
  unfold applyEvent
  obtain ⟨-, h2, h3, h4, h5, h6⟩ := recordChange_counters s c
  exact ⟨h2, h3, h4, h5, h6⟩

theorem foldl_applyEvent_projectVersion (l : List FileEvent) (s : ProjectState) :
    (l.foldl applyEvent s).projectVersion = s.projectVersion + l.length := by
  induction l generalizing s with
  | nil => simp
  | cons c l ih =>
    simp only [List.foldl_cons, List.length_cons, ih, applyEvent_projectVersion]
    omega

theorem foldl_applyEvent_counters (l : List FileEvent) (s : ProjectState) :
    (l.foldl applyEvent s).typeRootVersion = s.typeRootVersion ∧
    (l.foldl applyEvent s).vueLs = s.vueLs ∧
    (l.foldl applyEvent s).lsFactoryCount = s.lsFactoryCount ∧
    (l.foldl applyEvent s).parsedCommandLine = s.parsedCommandLine ∧
    (l.foldl applyEvent s).pclComputeCount = s.pclComputeCount := by
  induction l generalizing s with
  | nil => exact ⟨rfl, rfl, rfl, rfl, rfl⟩
  | cons c l ih =>
    obtain ⟨h1, h2, h3, h4, h5⟩ := ih (applyEvent s c)
    obtain ⟨g1, g2, g3, g4, g5⟩ := applyEvent_counters s c
    simp only [List.foldl_cons]
    exact ⟨h1.trans g1, h2.trans g2, h3.trans g3, h4.trans g4, h5.trans g5⟩

theorem invalidatedVersion_ne (v : Int) : invalidatedVersion v ≠ v := by
  unfold invalidatedVersion
  split <;> omega

theorem invalidatedVersion_neg (v : Int) : invalidatedVersion v < 0 := by
  unfold invalidatedVersion
  split <;> omega

theorem recordChange_invalidates (s : ProjectState) (p : Path)
    (t : FileChangeType) (sc : ScriptEntry) (h : s.scripts p = some sc)
    (ht : t = FileChangeType.Changed ∨ t = FileChangeType.Created) :
    (recordChange s ⟨p, t⟩).scripts p =
      some { sc with version := invalidatedVersion sc.version } := by
  unfold recordChange
  simp only [h]
  rw [if_pos ht]
  simp [setScript]

theorem recordChange_deletes (s : ProjectState) (p : Path) (sc : ScriptEntry)
    (h : s.scripts p = some sc) :
    (recordChange s ⟨p, FileChangeType.Deleted⟩).scripts p = none := by
  unfold recordChange
  simp only [h]
  simp [delScript]

theorem applyEvent_scripts (s : ProjectState) (c : FileEvent) :
    (applyEvent s c).scripts = (recordChange s c).scripts := rfl

theorem applyEvent_scripts_none (s : ProjectState) (c : FileEvent) (p : Path)
    (h : s.scripts p = none) : (applyEvent s c).scripts p = none := by
  rw [applyEvent_scripts]
  unfold recordChange
  cases hc : s.scripts c.uri with
  | none => exact h
  | some sc =>
    have hne : ¬p = c.uri := by
      intro he
      rw [he, hc] at h
      exact Option.noConfusion h
    dsimp only
    split
    · simp [setScript, hne, h]
    · split
      · simp [delScript, hne, h]
      · exact h

theorem foldl_applyEvent_scripts_none (l : List FileEvent) (s : ProjectState)
    (p : Path) (h : s.scripts p = none) :
    (l.foldl applyEvent s).scripts p = none := by
  induction l generalizing s with
  | nil => exact h
  | cons c l ih =>
    simp only [List.foldl_cons]
    exact ih (applyEvent s c) (applyEvent_scripts_none s c p h)

theorem onWorkspaceFilesChanged_scripts (s : ProjectState)
    (changes : List FileEvent) :
    (onWorkspaceFilesChanged s changes).scripts =
      (changes.foldl applyEvent s).scripts := by
  unfold onWorkspaceFilesChanged
  dsimp only
  split <;> rfl

/-! ## Concrete fixtures used by witnesses -/

/-- A tracked entry at version 0 with a valid cached snapshot. -/
def entryA : ScriptEntry :=
  { version := 0, fileName := "/a.ts", snapshot := some "aText", snapshotVersion := some 0 }

/-- A tracked entry whose cached snapshot is stale (`snapshotVersion ≠ version`). -/
def entryB : ScriptEntry :=
  { version := 5, fileName := "/b.ts", snapshot := some "bOld", snapshotVersion := some 3 }

/-- An open document at version 7. -/
def docOpen : Doc :=
  { version := 7, snapshot := "openText" }

/-- A document store with exactly one open document, `/open.ts`. -/
def demoDocs : DocumentStore :=
  { fsPathGet := fun p => if p = "/open.ts" then some docOpen else none }

/-- A filesystem where `/b.ts` and `/new.ts` exist and read successfully. -/
def demoFS : FS :=
  { fileExists := fun p => p == "/b.ts" || p == "/new.ts"
    readFile := fun p =>
      if p = "/b.ts" then some "bNew"
      else if p = "/new.ts" then some "newText"
      else none }

/-- A project state tracking `/a.ts` (cache-valid) and `/b.ts` (stale cache). -/
def demoState : ProjectState :=
  { createProject with
      scripts := fun p =>
        if p = "/a.ts" then some entryA
        else if p = "/b.ts" then some entryB
        else none }

/-! ## Claim theorems -/

/-- C1: for every batch of N workspace file-change events passed to
`onWorkspaceFilesChanged`, `projectVersion` after the call equals its value
before the call plus N, regardless of the mix of Created/Changed/Deleted
kinds and regardless of whether each event's path is tracked in the script
registry. -/
theorem projectVersion_plus_batch_length (s : ProjectState)
    (changes : List FileEvent) :
    (onWorkspaceFilesChanged s changes).projectVersion =
      s.projectVersion + changes.length := by
  unfold onWorkspaceFilesChanged
  dsimp only
  split <;> simp [foldl_applyEvent_projectVersion]

/-- C3: a `Changed` or `Created` event on a tracked path sets the entry's
version to -1 if it was ≥ 0 and decrements it by one if it was already
negative; consequently two consecutive `Changed` events on the same tracked
path, with no snapshot read in between, each yield a version strictly
different from the version after the previous event. -/
theorem changed_event_invalidates_version (s : ProjectState) (p : Path)
    (t : FileChangeType) (sc : ScriptEntry) (h : s.scripts p = some sc)
    (ht : t = FileChangeType.Changed ∨ t = FileChangeType.Created) :
    (0 ≤ sc.version →
      (applyEvent s ⟨p, t⟩).scripts p = some { sc with version := -1 }) ∧
    (sc.version < 0 →
      (applyEvent s ⟨p, t⟩).scripts p = some { sc with version := sc.version - 1 }) ∧
    (∀ sc1 sc2,
      (applyEvent s ⟨p, FileChangeType.Changed⟩).scripts p = some sc1 →
      (applyEvent (applyEvent s ⟨p, FileChangeType.Changed⟩)
          ⟨p, FileChangeType.Changed⟩).scripts p = some sc2 →
      sc1.version ≠ sc.version ∧ sc2.version ≠ sc1.version) := by
  have key : (applyEvent s ⟨p, t⟩).scripts p =
      some { sc with version := invalidatedVersion sc.version } := by
    rw [applyEvent_scripts]
    exact recordChange_invalidates s p t sc h ht
  have key1 : (applyEvent s ⟨p, FileChangeType.Changed⟩).scripts p =
      some { sc with version := invalidatedVersion sc.version } := by
    rw [applyEvent_scripts]
    exact recordChange_invalidates s p FileChangeType.Changed sc h (Or.inl rfl)
  have key2 : (applyEvent (applyEvent s ⟨p, FileChangeType.Changed⟩)
      ⟨p, FileChangeType.Changed⟩).scripts p =
      some { sc with version := invalidatedVersion (invalidatedVersion sc.version) } := by
    rw [applyEvent_scripts]
    exact recordChange_invalidates _ p FileChangeType.Changed _ key1 (Or.inl rfl)
  refine ⟨?_, ?_, ?_⟩
  · intro hv
    rw [key]
    simp [invalidatedVersion, hv]
  · intro hv
    rw [key]
    have : ¬(0 ≤ sc.version) := by omega
    simp [invalidatedVersion, this]
  · intro sc1 sc2 h1 h2
    rw [key1] at h1
    rw [key2] at h2
    have e1 := (Option.some.inj h1).symm
    have e2 := (Option.some.inj h2).symm
    rw [e1, e2]
    refine ⟨by simpa using invalidatedVersion_ne sc.version, ?_⟩
    simpa using invalidatedVersion_ne (invalidatedVersion sc.version)

/-- Witness for C3: applied to the demo state tracking `/a.ts` at version 0,
a `Changed` event rewrites the entry to version -1. -/
theorem changed_event_invalidates_version_witness :
    (applyEvent demoState ⟨"/a.ts", FileChangeType.Changed⟩).scripts "/a.ts" =
      some { entryA with version := -1 } :=
  (changed_event_invalidates_version demoState "/a.ts" FileChangeType.Changed
      entryA (by decide) (Or.inl rfl)).1 (by decide)

/-- C4: a batch with at least one `Created` or `Deleted` event recomputes the
parsed configuration cache exactly once and bumps `typeRootVersion` by
exactly one for the whole batch; a batch of only `Changed` events leaves
`typeRootVersion` and the parsed configuration cache untouched;
`onDocumentUpdated` never changes `typeRootVersion`. -/
theorem typeRootVersion_batch_semantics (s : ProjectState)
    (changes : List FileEvent) :
    ((∃ c ∈ changes,
        c.type = FileChangeType.Created ∨ c.type = FileChangeType.Deleted) →
      (onWorkspaceFilesChanged s changes).typeRootVersion = s.typeRootVersion + 1 ∧
      (onWorkspaceFilesChanged s changes).pclComputeCount = s.pclComputeCount + 1 ∧
      (onWorkspaceFilesChanged s changes).parsedCommandLine = s.pclComputeCount) ∧
    ((∀ c ∈ changes, c.type = FileChangeType.Changed) →
      (onWorkspaceFilesChanged s changes).typeRootVersion = s.typeRootVersion ∧
      (onWorkspaceFilesChanged s changes).pclComputeCount = s.pclComputeCount ∧
      (onWorkspaceFilesChanged s changes).parsedCommandLine = s.parsedCommandLine) ∧
    (onDocumentUpdated s).typeRootVersion = s.typeRootVersion := by
  obtain ⟨h1, -, -, h4, h5⟩ := foldl_applyEvent_counters changes s
  refine ⟨?_, ?_, rfl⟩
  · rintro ⟨c, hc, ht⟩
    have hcond :
        (changes.filter fun change =>
          decide (change.type = FileChangeType.Created)).length ≠ 0 ∨
        (changes.filter fun change =>
          decide (change.type = FileChangeType.Deleted)).length ≠ 0 := by
      cases ht with
      | inl hcr =>
        left
        have hm : c ∈ changes.filter
            (fun change => decide (change.type = FileChangeType.Created)) :=
          List.mem_filter.mpr ⟨hc, by simp [hcr]⟩
        have := List.ne_nil_of_mem hm
        simpa [List.length_eq_zero] using this
      | inr hde =>
        right
        have hm : c ∈ changes.filter
            (fun change => decide (change.type = FileChangeType.Deleted)) :=
          List.mem_filter.mpr ⟨hc, by simp [hde]⟩
        have := List.ne_nil_of_mem hm
        simpa [List.length_eq_zero] using this
    unfold onWorkspaceFilesChanged
    dsimp only
    rw [if_pos hcond]
    exact ⟨by simp [h1], by simp [h5], by simp [h5]⟩
  · intro hall
    have hcr : changes.filter
        (fun change => decide (change.type = FileChangeType.Created)) = [] := by
      rw [List.filter_eq_nil_iff]
      intro a ha
      simp [hall a ha]
    have hde : changes.filter
        (fun change => decide (change.type = FileChangeType.Deleted)) = [] := by
      rw [List.filter_eq_nil_iff]
      intro a ha
      simp [hall a ha]
    unfold onWorkspaceFilesChanged
    dsimp only
    rw [if_neg]
    · exact ⟨h1, h5, h4⟩
    · simp [hcr, hde]

/-- Witness for C4: a batch holding one `Created` and one `Deleted` event,
applied to the demo state, bumps `typeRootVersion` by exactly one and
recomputes the parsed configuration cache exactly once. -/
theorem typeRootVersion_batch_semantics_witness :
    (onWorkspaceFilesChanged demoState
        [⟨"/new.ts", FileChangeType.Created⟩, ⟨"/a.ts", FileChangeType.Deleted⟩]).typeRootVersion =
      demoState.typeRootVersion + 1 ∧
    (onWorkspaceFilesChanged demoState
        [⟨"/new.ts", FileChangeType.Created⟩, ⟨"/a.ts", FileChangeType.Deleted⟩]).pclComputeCount =
      demoState.pclComputeCount + 1 :=
  by
    have h := (typeRootVersion_batch_semantics demoState
      [⟨"/new.ts", FileChangeType.Created⟩, ⟨"/a.ts", FileChangeType.Deleted⟩]).1
      ⟨⟨"/new.ts", FileChangeType.Created⟩, by decide, Or.inl rfl⟩
    exact ⟨h.1, h.2.1⟩

/-- C7: a `Deleted` event for a tracked path removes its script registry
entry outright, so a later version lookup for that path, with no intervening
`Created` event for it and the path not open in the document store, returns
the untracked result (the empty string from a missing entry), not a stale
version. -/
theorem deleted_event_removes_entry (s : ProjectState) (p : Path)
    (sc : ScriptEntry) (documents : DocumentStore) (later : List FileEvent)
    (h : s.scripts p = some sc) (hd : documents.fsPathGet p = none)
    (hnc : ∀ e ∈ later, e.uri = p → e.type ≠ FileChangeType.Created) :
    (onWorkspaceFilesChanged s [⟨p, FileChangeType.Deleted⟩]).scripts p = none ∧
    getScriptVersion documents
      (onWorkspaceFilesChanged
        (onWorkspaceFilesChanged s [⟨p, FileChangeType.Deleted⟩]) later) p = "" := by
  have h0 : (onWorkspaceFilesChanged s [⟨p, FileChangeType.Deleted⟩]).scripts p = none := by
    rw [onWorkspaceFilesChanged_scripts]
    simp only [List.foldl_cons, List.foldl_nil]
    rw [applyEvent_scripts]
    exact recordChange_deletes s p sc h
  refine ⟨h0, ?_⟩
  have h1 : (onWorkspaceFilesChanged
      (onWorkspaceFilesChanged s [⟨p, FileChangeType.Deleted⟩]) later).scripts p = none := by
    rw [onWorkspaceFilesChanged_scripts]
    exact foldl_applyEvent_scripts_none later _ p h0
  simp [getScriptVersion, hd, h1]

/-- Witness for C7: deleting tracked `/a.ts` from the demo state and then
processing a further `Changed` event for it leaves the version lookup at the
untracked result `""`. -/
theorem deleted_event_removes_entry_witness :
    (onWorkspaceFilesChanged demoState [⟨"/a.ts", FileChangeType.Deleted⟩]).scripts "/a.ts" = none ∧
    getScriptVersion demoDocs
      (onWorkspaceFilesChanged
        (onWorkspaceFilesChanged demoState [⟨"/a.ts", FileChangeType.Deleted⟩])
        [⟨"/a.ts", FileChangeType.Changed⟩]) "/a.ts" = "" :=
  deleted_event_removes_entry demoState "/a.ts" entryA demoDocs
    [⟨"/a.ts", FileChangeType.Changed⟩] (by decide) (by decide) (by decide)

theorem readAndCacheSnapshot_fst (fs : FS) (s : ProjectState) (p : Path) :
    (readAndCacheSnapshot fs s p).1 =
      if fs.fileExists p then (fs.readFile p).map scriptSnapshotFromString
      else none := by
  unfold readAndCacheSnapshot
  cases hfe : fs.fileExists p with
  | false => simp [hfe]
  | true =>
    cases hrf : fs.readFile p with
    | none => simp [hfe, hrf]
    | some text =>
      cases hsc : s.scripts p <;> simp [hfe, hrf, hsc]

theorem readAndCacheSnapshot_counters (fs : FS) (s : ProjectState) (p : Path) :
    (readAndCacheSnapshot fs s p).2.projectVersion = s.projectVersion ∧
    (readAndCacheSnapshot fs s p).2.typeRootVersion = s.typeRootVersion ∧
    (readAndCacheSnapshot fs s p).2.parsedCommandLine = s.parsedCommandLine ∧
    (readAndCacheSnapshot fs s p).2.pclComputeCount = s.pclComputeCount ∧
    (readAndCacheSnapshot fs s p).2.vueLs = s.vueLs ∧
    (readAndCacheSnapshot fs s p).2.lsFactoryCount = s.lsFactoryCount := by
  unfold readAndCacheSnapshot
  cases hfe : fs.fileExists p with
  | false => simp [hfe]
  | true =>
    cases hrf : fs.readFile p with
    | none => simp [hfe, hrf]
    | some text => cases hsc : s.scripts p <;> simp [hfe, hrf, hsc]

theorem readAndCacheSnapshot_scripts_other (fs : FS) (s : ProjectState)
    (p q : Path) (hq : q ≠ p) :
    (readAndCacheSnapshot fs s p).2.scripts q = s.scripts q := by
  unfold readAndCacheSnapshot
  cases hfe : fs.fileExists p with
  | false => simp [hfe]
  | true =>
    cases hrf : fs.readFile p with
    | none => simp [hfe, hrf]
    | some text =>
      cases hsc : s.scripts p <;> simp [hfe, hrf, hsc, setScript, hq]

theorem readAndCacheSnapshot_preserves_entry (fs : FS) (s : ProjectState)
    (p : Path) (sc : ScriptEntry) (hsc : s.scripts p = some sc) :
    ∃ sc2, (readAndCacheSnapshot fs s p).2.scripts p = some sc2 ∧
      sc2.version = sc.version ∧ sc2.fileName = sc.fileName := by
  unfold readAndCacheSnapshot
  cases hfe : fs.fileExists p with
  | false => exact ⟨sc, by simp [hfe, hsc], rfl, rfl⟩
  | true =>
    cases hrf : fs.readFile p with
    | none => exact ⟨sc, by simp [hfe, hrf, hsc], rfl, rfl⟩
    | some text =>
      refine ⟨{ sc with snapshot := some (scriptSnapshotFromString text), snapshotVersion := some sc.version }, ?_, rfl, rfl⟩
      simp [hfe, hrf, hsc, setScript]

/-- C2: for a path that is not an open document but has a script registry
entry, `getScriptSnapshot` returns the entry's cached snapshot unchanged
exactly when the stored `snapshotVersion` equals the current `version`; any
other combination re-reads through the filesystem interface (the returned
value is the wrapped `readFile` result, or no snapshot when the file is
missing). For an open document the document store's live snapshot is
returned regardless of registry state. -/
theorem snapshot_cache_validity (documents : DocumentStore) (fs : FS)
    (s : ProjectState) (p : Path) :
    (∀ doc, documents.fsPathGet p = some doc →
      getScriptSnapshot documents fs s p = (some doc.snapshot, s)) ∧
    (∀ sc, documents.fsPathGet p = none → s.scripts p = some sc →
      sc.snapshotVersion = some sc.version →
      getScriptSnapshot documents fs s p = (sc.snapshot, s)) ∧
    (∀ sc, documents.fsPathGet p = none → s.scripts p = some sc →
      sc.snapshotVersion ≠ some sc.version →
      (getScriptSnapshot documents fs s p).1 =
        if fs.fileExists p then (fs.readFile p).map scriptSnapshotFromString
        else none) := by
  refine ⟨?_, ?_, ?_⟩
  · intro doc hdoc
    simp [getScriptSnapshot, hdoc]
  · intro sc hdoc hsc hvalid
    simp [getScriptSnapshot, hdoc, hsc, hvalid]
  · intro sc hdoc hsc hstale
    have : getScriptSnapshot documents fs s p = readAndCacheSnapshot fs s p := by
      simp [getScriptSnapshot, hdoc, hsc, hstale]
    rw [this, readAndCacheSnapshot_fst]

/-- Witness for C2, one conjunct per fixture path: the open document
`/open.ts` yields the live document snapshot, cache-valid `/a.ts` yields its
cached snapshot with no state change, and stale `/b.ts` yields the
re-read filesystem content. -/
theorem snapshot_cache_validity_witness :
    getScriptSnapshot demoDocs demoFS demoState "/open.ts" =
      (some "openText", demoState) ∧
    getScriptSnapshot demoDocs demoFS demoState "/a.ts" =
      (some "aText", demoState) ∧
    (getScriptSnapshot demoDocs demoFS demoState "/b.ts").1 = some "bNew" := by
  refine ⟨?_, ?_, ?_⟩
  · exact (snapshot_cache_validity demoDocs demoFS demoState "/open.ts").1
      docOpen (by decide)
  · exact (snapshot_cache_validity demoDocs demoFS demoState "/a.ts").2.1
      entryA (by decide) (by decide) (by decide)
  · have h := (snapshot_cache_validity demoDocs demoFS demoState "/b.ts").2.2
      entryB (by decide) (by decide) (by decide)
    rw [h]
    decide

/-- C9: for a path that is neither open nor tracked, a successful
`getScriptSnapshot` (file exists, read succeeds) returns the wrapped text,
creates a registry entry with `version = -1` and `snapshotVersion = -1`
(immediately cache-valid: a repeated fetch returns the stored snapshot with
no state change), and a subsequent version lookup returns `"-1"`. -/
theorem lazy_entry_created_at_minus_one (documents : DocumentStore) (fs : FS)
    (s : ProjectState) (p : Path) (text : String)
    (hd : documents.fsPathGet p = none) (hs : s.scripts p = none)
    (he : fs.fileExists p = true) (hr : fs.readFile p = some text) :
    (getScriptSnapshot documents fs s p).1 = some text ∧
    (getScriptSnapshot documents fs s p).2.scripts p =
      some { version := -1, fileName := p, snapshot := some text,
             snapshotVersion := some (-1) } ∧
    getScriptVersion documents (getScriptSnapshot documents fs s p).2 p = "-1" ∧
    getScriptSnapshot documents fs (getScriptSnapshot documents fs s p).2 p =
      (some text, (getScriptSnapshot documents fs s p).2) := by
  have hred : getScriptSnapshot documents fs s p = readAndCacheSnapshot fs s p := by
    simp [getScriptSnapshot, hd, hs]
  have hval : readAndCacheSnapshot fs s p =
      (some text, { s with scripts := setScript s.scripts p { version := -1, fileName := p, snapshot := some text, snapshotVersion := some (-1) } }) := by
    simp [readAndCacheSnapshot, he, hr, hs, scriptSnapshotFromString]
  have hentry : (getScriptSnapshot documents fs s p).2.scripts p =
      some { version := -1, fileName := p, snapshot := some text,
             snapshotVersion := some (-1) } := by
    rw [hred, hval]
    simp [setScript]
  refine ⟨by rw [hred, hval], hentry, ?_, ?_⟩
  · rw [getScriptVersion, hd, hentry]
    show toString (-1 : Int) = "-1"
    decide
  · rw [getScriptSnapshot, hd, hentry]
    simp

/-- Witness for C9: fetching untracked, unopened `/new.ts` from the demo
filesystem stores a fresh cache-valid entry and makes the version lookup
return `"-1"`. -/
theorem lazy_entry_created_at_minus_one_witness :
    (getScriptSnapshot demoDocs demoFS createProject "/new.ts").1 = some "newText" ∧
    getScriptVersion demoDocs
      (getScriptSnapshot demoDocs demoFS createProject "/new.ts").2 "/new.ts" = "-1" := by
  have h := lazy_entry_created_at_minus_one demoDocs demoFS createProject
    "/new.ts" "newText" (by decide) rfl (by decide) (by decide)
  exact ⟨h.1, h.2.2.1⟩

/-- C10: `getScriptSnapshot` is read-only except for the queried entry's
snapshot cache: it never changes `projectVersion`, `typeRootVersion`, the
parsed configuration cache, the language-service slot, or entries of other
paths; it never removes the queried entry and never changes its `version`
(or `fileName`) field. -/
theorem getScriptSnapshot_frame (documents : DocumentStore) (fs : FS)
    (s : ProjectState) (p : Path) :
    (getScriptSnapshot documents fs s p).2.projectVersion = s.projectVersion ∧
    (getScriptSnapshot documents fs s p).2.typeRootVersion = s.typeRootVersion ∧
    (getScriptSnapshot documents fs s p).2.parsedCommandLine = s.parsedCommandLine ∧
    (getScriptSnapshot documents fs s p).2.pclComputeCount = s.pclComputeCount ∧
    (getScriptSnapshot documents fs s p).2.vueLs = s.vueLs ∧
    (getScriptSnapshot documents fs s p).2.lsFactoryCount = s.lsFactoryCount ∧
    (∀ q, q ≠ p → (getScriptSnapshot documents fs s p).2.scripts q = s.scripts q) ∧
    (∀ sc, s.scripts p = some sc →
      ∃ sc2, (getScriptSnapshot documents fs s p).2.scripts p = some sc2 ∧
        sc2.version = sc.version ∧ sc2.fileName = sc.fileName) := by
  cases hdoc : documents.fsPathGet p with
  | some doc =>
    have heq : getScriptSnapshot documents fs s p = (some doc.snapshot, s) := by
      simp [getScriptSnapshot, hdoc]
    rw [heq]
    exact ⟨rfl, rfl, rfl, rfl, rfl, rfl, fun q _ => rfl, fun sc h => ⟨sc, h, rfl, rfl⟩⟩
  | none =>
    cases hsc : s.scripts p with
    | some sc0 =>
      by_cases hv : sc0.snapshotVersion = some sc0.version
      · have heq : getScriptSnapshot documents fs s p = (sc0.snapshot, s) := by
          simp [getScriptSnapshot, hdoc, hsc, hv]
        rw [heq]
        exact ⟨rfl, rfl, rfl, rfl, rfl, rfl, fun q _ => rfl,
          fun sc h => ⟨sc, hsc.trans h, rfl, rfl⟩⟩
      · have heq : getScriptSnapshot documents fs s p = readAndCacheSnapshot fs s p := by
          simp [getScriptSnapshot, hdoc, hsc, hv]
        rw [heq]
        obtain ⟨c1, c2, c3, c4, c5, c6⟩ := readAndCacheSnapshot_counters fs s p
        exact ⟨c1, c2, c3, c4, c5, c6,
          fun q hq => readAndCacheSnapshot_scripts_other fs s p q hq,
          fun sc h => readAndCacheSnapshot_preserves_entry fs s p sc (hsc.trans h)⟩
    | none =>
      have heq : getScriptSnapshot documents fs s p = readAndCacheSnapshot fs s p := by
        simp [getScriptSnapshot, hdoc, hsc]
      rw [heq]
      obtain ⟨c1, c2, c3, c4, c5, c6⟩ := readAndCacheSnapshot_counters fs s p
      exact ⟨c1, c2, c3, c4, c5, c6,
        fun q hq => readAndCacheSnapshot_scripts_other fs s p q hq,
        fun sc h => Option.noConfusion h⟩

/-- Witness for C10: re-reading stale `/b.ts` leaves `projectVersion` and the
unrelated entry `/a.ts` untouched and keeps `/b.ts` tracked at its old
version. -/
theorem getScriptSnapshot_frame_witness :
    (getScriptSnapshot demoDocs demoFS demoState "/b.ts").2.projectVersion =
      demoState.projectVersion ∧
    (getScriptSnapshot demoDocs demoFS demoState "/b.ts").2.scripts "/a.ts" =
      demoState.scripts "/a.ts" ∧
    (∃ sc2, (getScriptSnapshot demoDocs demoFS demoState "/b.ts").2.scripts "/b.ts" =
        some sc2 ∧ sc2.version = entryB.version ∧ sc2.fileName = entryB.fileName) := by
  have h := getScriptSnapshot_frame demoDocs demoFS demoState "/b.ts"
  exact ⟨h.1, h.2.2.2.2.2.2.1 "/a.ts" (by decide),
    h.2.2.2.2.2.2.2 entryB (by decide)⟩

/-- Counterexample to C5 as stated: after `dispose()` the controller is not
in a terminal no-op state — `onDocumentUpdated` still increments
`projectVersion` (the source sets no disposed flag). -/
theorem dispose_not_terminal_counterexample :
    (onDocumentUpdated (dispose createProject)).projectVersion ≠
      (dispose createProject).projectVersion := by
  decide

/-- C5 amended: `dispose()` marks the engine instance disposed when one was
constructed and clears the script registry, leaving every other field
untouched; calling `dispose()` again — including when the engine was never
constructed — leaves the state unchanged. There is no terminal Disposed
state: operations after disposal still take effect (see the counterexample:
`onDocumentUpdated` still increments `projectVersion`). -/
theorem dispose_idempotent_not_terminal (s : ProjectState) :
    dispose (dispose s) = dispose s ∧
    (∀ q, (dispose s).scripts q = none) ∧
    (dispose s).vueLs = s.vueLs.map (fun ls => { ls with disposed := true }) ∧
    (dispose s).projectVersion = s.projectVersion ∧
    (dispose s).typeRootVersion = s.typeRootVersion ∧
    (dispose s).parsedCommandLine = s.parsedCommandLine ∧
    (onDocumentUpdated (dispose s)).projectVersion = (dispose s).projectVersion + 1 := by
  refine ⟨?_, fun q => rfl, rfl, rfl, rfl, rfl, rfl⟩
  simp only [dispose]
  rcases hv : s.vueLs with _ | ls <;> simp [hv]

theorem onWorkspaceFilesChanged_engine_frame (s : ProjectState)
    (changes : List FileEvent) :
    (onWorkspaceFilesChanged s changes).vueLs = s.vueLs ∧
    (onWorkspaceFilesChanged s changes).lsFactoryCount = s.lsFactoryCount := by
  obtain ⟨-, h2, h3, -, -⟩ := foldl_applyEvent_counters changes s
  unfold onWorkspaceFilesChanged
  dsimp only
  split
  · exact ⟨h2, h3⟩
  · exact ⟨h2, h3⟩

theorem getScriptSnapshot_engine_frame (documents : DocumentStore) (fs : FS)
    (s : ProjectState) (p : Path) :
    (getScriptSnapshot documents fs s p).2.vueLs = s.vueLs ∧
    (getScriptSnapshot documents fs s p).2.lsFactoryCount = s.lsFactoryCount := by
  cases hdoc : documents.fsPathGet p with
  | some doc => simp [getScriptSnapshot, hdoc]
  | none =>
    cases hsc : s.scripts p with
    | some sc0 =>
      by_cases hv : sc0.snapshotVersion = some sc0.version
      · simp [getScriptSnapshot, hdoc, hsc, hv]
      · have heq : getScriptSnapshot documents fs s p = readAndCacheSnapshot fs s p := by
          simp [getScriptSnapshot, hdoc, hsc, hv]
        rw [heq]
        obtain ⟨-, -, -, -, c5, c6⟩ := readAndCacheSnapshot_counters fs s p
        exact ⟨c5, c6⟩
    | none =>
      have heq : getScriptSnapshot documents fs s p = readAndCacheSnapshot fs s p := by
        simp [getScriptSnapshot, hdoc, hsc]
      rw [heq]
      obtain ⟨-, -, -, -, c5, c6⟩ := readAndCacheSnapshot_counters fs s p
      exact ⟨c5, c6⟩

theorem runOp_engine_frame (s : ProjectState) (ls : LanguageService)
    (h : s.vueLs = some ls) (o : Op) :
    (runOp s o).vueLs = some ls ∧ (runOp s o).lsFactoryCount = s.lsFactoryCount := by
  cases o with
  | workspaceFilesChanged changes =>
    obtain ⟨h1, h2⟩ := onWorkspaceFilesChanged_engine_frame s changes
    exact ⟨h1.trans h, h2⟩
  | documentUpdated => exact ⟨h, rfl⟩
  | scriptSnapshot documents fs p =>
    obtain ⟨h1, h2⟩ := getScriptSnapshot_engine_frame documents fs s p
    exact ⟨h1.trans h, h2⟩
  | languageService =>
    have := getLanguageService_of_some s ls h
    show (getLanguageService s).2.vueLs = some ls ∧
      (getLanguageService s).2.lsFactoryCount = s.lsFactoryCount
    rw [this]
    exact ⟨h, rfl⟩
  | scriptVersion documents p => exact ⟨h, rfl⟩
  | parsedCommandLineRead => exact ⟨h, rfl⟩
  | languageServiceDontCreate => exact ⟨h, rfl⟩

theorem runOps_engine_frame (ops : List Op) (s : ProjectState)
    (ls : LanguageService) (h : s.vueLs = some ls) :
    (runOps s ops).vueLs = some ls ∧
    (runOps s ops).lsFactoryCount = s.lsFactoryCount := by
  induction ops generalizing s with
  | nil => exact ⟨h, rfl⟩
  | cons o ops ih =>
    obtain ⟨h1, h2⟩ := runOp_engine_frame s ls h o
    obtain ⟨g1, g2⟩ := ih (runOp s o) h1
    exact ⟨g1, g2.trans h2⟩

/-- C6: the lazy analysis-engine accessor is memoized: a call made after the
first call, with any sequence of non-dispose operations (workspace change
batches, document updates, snapshot fetches, further accessor calls, pure
reads) in between, returns the identical instance and leaves the state
unchanged, and the factory is invoked at most once across the whole trace,
all accessor calls included. -/
theorem getLanguageService_memoized (s : ProjectState) (ops : List Op) :
    (getLanguageService (runOps (getLanguageService s).2 ops)).1 =
      (getLanguageService s).1 ∧
    (getLanguageService (runOps (getLanguageService s).2 ops)).2 =
      runOps (getLanguageService s).2 ops ∧
    (runOps (getLanguageService s).2 ops).lsFactoryCount ≤
      s.lsFactoryCount + 1 := by
  have hv1 : (getLanguageService s).2.vueLs = some (getLanguageService s).1 := by
    rcases hvv : s.vueLs with _ | ls0
    · rw [getLanguageService_of_none s hvv]
    · rw [getLanguageService_of_some s ls0 hvv]
      exact hvv
  have hcnt : (getLanguageService s).2.lsFactoryCount ≤ s.lsFactoryCount + 1 := by
    rcases hvv : s.vueLs with _ | ls0
    · rw [getLanguageService_of_none s hvv]
    · rw [getLanguageService_of_some s ls0 hvv]
      exact Nat.le_succ s.lsFactoryCount
  obtain ⟨hp1, hp2⟩ := runOps_engine_frame ops (getLanguageService s).2
    (getLanguageService s).1 hv1
  have hfinal := getLanguageService_of_some
    (runOps (getLanguageService s).2 ops) (getLanguageService s).1 hp1
  refine ⟨by rw [hfinal], by rw [hfinal], ?_⟩
  rw [hp2]
  exact hcnt

/-- C8: the uri content-resolution callback uses the built-in handler for the
uri's protocol when one exists; otherwise, when the remote schema-request
service is configured, it forwards to the remote fetch, propagating a
rejection as the underlying `error.message`; otherwise it rejects with the
fixed descriptive message. Being a plain function of its collaborators and
the uri, it touches no project state. -/
theorem resolveUriContent_spec (env : ResolveEnv) (uri : String) :
    (∀ h, env.schemaRequestHandlers (uriProtocol uri) = some h →
      resolveUriContent env uri = h uri) ∧
    (env.schemaRequestHandlers (uriProtocol uri) = none →
      env.hasSchemaRequestService = true →
      (∀ text, env.sendGetDocumentContentRequest uri = Except.ok text →
        resolveUriContent env uri = Except.ok text) ∧
      (∀ e, env.sendGetDocumentContentRequest uri = Except.error e →
        resolveUriContent env uri = Except.error e.message)) ∧
    (env.schemaRequestHandlers (uriProtocol uri) = none →
      env.hasSchemaRequestService = false →
      resolveUriContent env uri =
        Except.error "clientHandledGetDocumentContentRequest is false") := by
  refine ⟨fun h hh => ?_, fun hn hs => ⟨fun text ht => ?_, fun e he => ?_⟩,
    fun hn hs => ?_⟩ <;>
    simp [resolveUriContent, *]

/-- A resolve environment with one built-in handler for protocol `file` and
no remote schema-request service. -/
def demoResolveEnv : ResolveEnv :=
  { schemaRequestHandlers := fun protocol =>
      if protocol = "file" then some (fun uri => Except.ok ("handled:" ++ uri))
      else none
    hasSchemaRequestService := false
    sendGetDocumentContentRequest := fun _ =>
      Except.error { message := "remote down" } }

/-- The same environment with the remote schema-request service enabled. -/
def demoResolveEnvRemote : ResolveEnv :=
  { demoResolveEnv with hasSchemaRequestService := true }

/-- Witness for C8: the `file` handler answers `file:` uris; without the
remote service an unhandled scheme gets the fixed rejection; with it the
remote rejection's message is propagated. -/
theorem resolveUriContent_spec_witness :
    resolveUriContent demoResolveEnv "file:///a" = Except.ok "handled:file:///a" ∧
    resolveUriContent demoResolveEnv "https://x" =
      Except.error "clientHandledGetDocumentContentRequest is false" ∧
    resolveUriContent demoResolveEnvRemote "https://x" =
      Except.error "remote down" := by
  refine ⟨?_, ?_, ?_⟩
  · exact (resolveUriContent_spec demoResolveEnv "file:///a").1
      (fun uri => Except.ok ("handled:" ++ uri)) rfl
  · exact (resolveUriContent_spec demoResolveEnv "https://x").2.2 rfl rfl
  · exact ((resolveUriContent_spec demoResolveEnvRemote "https://x").2.1 rfl rfl).2
      { message := "remote down" } rfl

end VolarProject
